import Mathlib

/-!
Shallow embedding of the bifrost token persistence subsystem.

Time is modelled as `Int` nanoseconds (Go `time.Time`/`time.Duration` have
nanosecond resolution); `time.Minute` is `60000000000` ns and one microsecond
is `1000` ns.  The configured timeout `_config.Token.Timeout` (minutes) is
passed as an explicit `Int` parameter, and `time.Now().UTC()` as an explicit
`now : Int` parameter.

The three backends are embedded as pure state-passing functions:
  * `TokenMemStore.*` over an association list keyed by token id
    (the Go `map[string]*Token` guarded by a RWMutex; the lock itself has no
    observable effect on the sequential semantics modelled here),
  * `tokenMongo.*` over the list of documents of the `tokens` collection,
    assuming the transport (mgo session dial) succeeds; the server-enforced
    unique `_id` index and the mgo safe-mode `ErrNotFound` ("not found") are
    part of the model,
  * `tokenRedis.*` over a `RedisState` (string keys holding marshalled
    tokens together with the expiration passed to SET, plus set-valued keys),
    with a `RedisEnv` of per-key transport-failure flags; `panicIf` on a
    transport error is modelled by the `RResult.panicked` outcome, which
    carries the store state at the moment of the panic (the mutations of the
    external store persist across a client panic).
-/

/-- The `AppError` struct used by the repository code
(`AppError{ErrorCode: ..., Message: ...}`). -/
structure AppError where
  ErrorCode : String
  Message : String
deriving DecidableEq, Repr

/-- A Go `error` returned by a backend: either an application error built by
the repository code, or an error of the external store propagated unchanged
(identified, as the code does, by its message string). -/
inductive RepoErr where
  | app : AppError → RepoErr
  | store : String → RepoErr
deriving DecidableEq, Repr

/-- The `Token` struct.  `Expiration` and `CreatedAt` are instants in
nanoseconds; `ExpiresIn` is the derived seconds-remaining field. -/
structure Token where
  ID : String
  Source : String
  ConsumerID : String
  IPAddress : String
  ExpiresIn : Int
  Expiration : Int
  CreatedAt : Int
deriving DecidableEq, Repr

/-- `newToken`: the generated uuid is passed in as `id`.
`Expiration = now + timeout minutes`, `CreatedAt = now`. -/
def newToken (timeout : Int) (now : Int) (id : String) (consumerID : String) : Token :=
  { ID := id
    Source := ""
    ConsumerID := consumerID
    IPAddress := ""
    ExpiresIn := 0
    Expiration := now + timeout * 60000000000
    CreatedAt := now }

/-- `Token.isValid`: `if time.Now().UTC().After(t.Expiration) { return false }; return true`.
`now.After(e)` holds iff `e < now`. -/
def Token.isValid (now : Int) (t : Token) : Bool :=
  if t.Expiration < now then false else true

/-- `Token.renew`: `t.Expiration = time.Now().UTC().Add(timeout minutes)`. -/
def Token.renew (timeout : Int) (now : Int) (t : Token) : Token :=
  { t with Expiration := now + timeout * 60000000000 }

/-- Association-list read, the Go map read `m[k]` (with `nil` as `none`). -/
def alookup {α : Type} : List (String × α) → String → Option α
  | [], _ => none
  | (k', v) :: rest, k => if k' == k then some v else alookup rest k

/-- Association-list write, the Go map write `m[k] = v`. -/
def aset {α : Type} : List (String × α) → String → α → List (String × α)
  | [], k, v => [(k, v)]
  | (k', v') :: rest, k, v =>
    if k' == k then (k, v) :: rest else (k', v') :: aset rest k v

/-- Association-list removal, the Go map `delete(m, k)` (and Redis `DEL`). -/
def adel {α : Type} (l : List (String × α)) (k : String) : List (String × α) :=
  l.filter (fun p => !(p.1 == k))

/-- The `data map[string]*Token` of the in-process store. -/
abbrev TokenMemStore := List (String × Token)

/-- `TokenMemStore.Get`: `result := ts.data[key]; return result, nil`. -/
def TokenMemStore.Get (key : String) (s : TokenMemStore) : Option Token × Option AppError :=
  (alookup s key, none)

/-- `TokenMemStore.GetByConsumerID`: scan the map, keep tokens whose
`ConsumerID` matches; never an error. -/
def TokenMemStore.GetByConsumerID (consumerID : String) (s : TokenMemStore) :
    List Token × Option AppError :=
  ((s.filter (fun p => p.2.ConsumerID == consumerID)).map Prod.snd, none)

/-- `TokenMemStore.Insert`: reject a present id with
`AppError{invalid_input, "The token key already exits."}`, otherwise set
`token.CreatedAt = time.Now().UTC()` and store it. -/
def TokenMemStore.Insert (now : Int) (t : Token) (s : TokenMemStore) :
    Option AppError × TokenMemStore :=
  match alookup s t.ID with
  | some _ => (some ⟨"invalid_input", "The token key already exits."⟩, s)
  | none => (none, (t.ID, { t with CreatedAt := now }) :: s)

/-- `TokenMemStore.Update`: reject a missing id with
`AppError{invalid_input, "The token was not found."}`, otherwise overwrite. -/
def TokenMemStore.Update (t : Token) (s : TokenMemStore) :
    Option AppError × TokenMemStore :=
  match alookup s t.ID with
  | none => (some ⟨"invalid_input", "The token was not found."⟩, s)
  | some _ => (none, aset s t.ID t)

/-- `TokenMemStore.Delete`: `delete(ts.data, key); return nil`. -/
def TokenMemStore.Delete (key : String) (s : TokenMemStore) :
    Option AppError × TokenMemStore :=
  (none, adel s key)

/-- `TokenMemStore.DeleteByConsumerID`: delete every entry whose token has the
given `ConsumerID`; never an error. -/
def TokenMemStore.DeleteByConsumerID (consumerID : String) (s : TokenMemStore) :
    Option AppError × TokenMemStore :=
  (none, s.filter (fun p => !(p.2.ConsumerID == consumerID)))

/-- The documents of the mongo `tokens` collection (keyed by `_id = Token.ID`,
with the server-enforced unique index on `_id`). -/
abbrev MongoTokens := List Token

/-- mgo `Collection.Remove(selector)`: removes the single first document
matching the selector. -/
def removeFirst (p : Token → Bool) : MongoTokens → MongoTokens
  | [] => []
  | d :: rest => if p d then rest else d :: removeFirst p rest

/-- `tokenMongo.Get`: `Find({_id: key}).One`; the mgo `ErrNotFound`
("not found") is translated to `(nil, nil)`. -/
def tokenMongo.Get (key : String) (db : MongoTokens) : Option Token × Option RepoErr :=
  (db.find? (fun d => d.ID == key), none)

/-- `tokenMongo.GetByConsumerID`: `Find({consumer_id: cid}).All`; an empty
result is returned as an empty list with no error. -/
def tokenMongo.GetByConsumerID (consumerID : String) (db : MongoTokens) :
    List Token × Option RepoErr :=
  (db.filter (fun d => d.ConsumerID == consumerID), none)

/-- `tokenMongo.Insert`: sets `token.CreatedAt = time.Now().UTC()` and runs
`c.Insert(token)`; the duplicate-key error of the server (`E11000…`) on a present
`_id` is translated to `AppError{invalid_input, "The token key already exits"}`. -/
def tokenMongo.Insert (now : Int) (t : Token) (db : MongoTokens) :
    Option RepoErr × MongoTokens :=
  if db.any (fun d => d.ID == t.ID) then
    (some (.app ⟨"invalid_input", "The token key already exits"⟩), db)
  else
    (none, db ++ [{ t with CreatedAt := now }])

/-- `tokenMongo.Delete`: `c.Remove({_id: key})`; in safe mode mgo returns
`ErrNotFound` ("not found") when no document matches, and the code returns
that error unchanged. -/
def tokenMongo.Delete (key : String) (db : MongoTokens) :
    Option RepoErr × MongoTokens :=
  if db.any (fun d => d.ID == key) then
    (none, removeFirst (fun d => d.ID == key) db)
  else
    (some (.store "not found"), db)

/-- `tokenMongo.DeleteByConsumerID`: `c.Remove({consumer_id: cid})` — the mgo
`Remove` deletes only the single first matching document (`RemoveAll` is not
used), and returns `ErrNotFound` unchanged when no document matches. -/
def tokenMongo.DeleteByConsumerID (consumerID : String) (db : MongoTokens) :
    Option RepoErr × MongoTokens :=
  if db.any (fun d => d.ConsumerID == consumerID) then
    (none, removeFirst (fun d => d.ConsumerID == consumerID) db)
  else
    (some (.store "not found"), db)

/-- Per-key transport-failure flags of the Redis client: `cmdFails key = true`
means that command on that key returns a transport error (which the code
escalates through `panicIf`). -/
structure RedisEnv where
  existsFails : String → Bool
  getFails : String → Bool
  setFails : String → Bool
  saddFails : String → Bool
  delFails : String → Bool
  smembersFails : String → Bool

/-- The healthy transport: no Redis command fails. -/
def RedisEnv.ok : RedisEnv :=
  { existsFails := fun _ => false
    getFails := fun _ => false
    setFails := fun _ => false
    saddFails := fun _ => false
    delFails := fun _ => false
    smembersFails := fun _ => false }

/-- The Redis store: string keys (`token:id:…`) holding a marshalled token
together with the expiration duration passed to `SET` (`0` = no TTL), and
set-valued keys (`token:consumer:…`) holding member id lists. -/
structure RedisState where
  kv : List (String × (Token × Int))
  sets : List (String × List String)
deriving DecidableEq, Repr

/-- Outcome of a Redis-backed operation: a normal return, or a `panicIf`
panic; both carry the store state (the mutations of the external store persist
across a client panic). -/
inductive RResult (α : Type) where
  | ok : α → RedisState → RResult α
  | panicked : String → RedisState → RResult α
deriving DecidableEq, Repr

/-- Redis `SADD key member` (creating the set when absent; set semantics:
a member already present is not added twice). -/
def setsAdd : List (String × List String) → String → String → List (String × List String)
  | [], k, m => [(k, [m])]
  | (k', ms) :: rest, k, m =>
    if k' == k then (k', if ms.contains m then ms else ms ++ [m]) :: rest
    else (k', ms) :: setsAdd rest k m

/-- Redis `DEL key` on the store state (removes the key whichever namespace
holds it). -/
def delKey (s : RedisState) (k : String) : RedisState :=
  ⟨adel s.kv k, adel s.sets k⟩

/-- Redis `SMEMBERS key`: the member list, empty when the key is absent
(`SMEMBERS` of a missing key is an empty reply, not an error). -/
def setMembers (s : RedisState) (k : String) : List String :=
  (alookup s.sets k).getD []

/-- `tokenRedis.Get`: `GET token:id:<id>`; the `redis: nil` reply for a
missing key becomes `(nil, nil)`; on a hit the token is unmarshalled and
`ExpiresIn` recomputed as whole seconds until `Expiration`. -/
def tokenRedis.Get (env : RedisEnv) (now : Int) (id : String) (s : RedisState) :
    RResult (Option Token) :=
  let key := "token:id:" ++ id
  if env.getFails key then .panicked "redis get failed" s
  else
    match alookup s.kv key with
    | none => .ok none s
    | some (t, _) => .ok (some { t with ExpiresIn := (t.Expiration - now) / 1000000000 }) s

/-- The member loop of `tokenRedis.GetByConsumerID`: fetch each id via
`tokenRedis.Get`, silently skipping absent records. -/
def tokenRedis.getEach (env : RedisEnv) (now : Int) :
    List String → RedisState → RResult (List Token)
  | [], s => .ok [] s
  | id :: rest, s =>
    match tokenRedis.Get env now id s with
    | .panicked m s' => .panicked m s'
    | .ok none s' => tokenRedis.getEach env now rest s'
    | .ok (some t) s' =>
      match tokenRedis.getEach env now rest s' with
      | .panicked m s'' => .panicked m s''
      | .ok ts s'' => .ok (t :: ts) s''

/-- `tokenRedis.GetByConsumerID`: `SMEMBERS token:consumer:<cid>`, then fetch
each member. -/
def tokenRedis.GetByConsumerID (env : RedisEnv) (now : Int) (consumerID : String)
    (s : RedisState) : RResult (List Token) :=
  let key := "token:consumer:" ++ consumerID
  if env.smembersFails key then .panicked "redis smembers failed" s
  else tokenRedis.getEach env now (setMembers s key) s

/-- `tokenRedis.Insert`: set `CreatedAt = now`; `EXISTS token:id:<id>` and
fail with `AppError{invalid_input, "The token key already exits"}` when
present; `SET` the marshalled token with TTL `Expiration - now`; `SADD` the
id into `token:consumer:<cid>`. -/
def tokenRedis.Insert (env : RedisEnv) (now : Int) (tok : Token) (s : RedisState) :
    RResult (Option AppError) :=
  let t : Token := { tok with CreatedAt := now }
  let key := "token:id:" ++ t.ID
  if env.existsFails key then .panicked "redis exists failed" s
  else if (alookup s.kv key).isSome then
    .ok (some ⟨"invalid_input", "The token key already exits"⟩) s
  else if env.setFails key then .panicked "redis set failed" s
  else
    let s1 : RedisState := { s with kv := aset s.kv key (t, t.Expiration - now) }
    let ckey := "token:consumer:" ++ t.ConsumerID
    if env.saddFails ckey then .panicked "redis sadd failed" s1
    else .ok none { s1 with sets := setsAdd s1.sets ckey t.ID }

/-- `tokenRedis.Update`: `SET token:id:<id> <marshalled token> 0` — an
unconditional overwrite with zero (no) TTL. -/
def tokenRedis.Update (env : RedisEnv) (t : Token) (s : RedisState) :
    RResult (Option AppError) :=
  let key := "token:id:" ++ t.ID
  if env.setFails key then .panicked "redis set failed" s
  else .ok none { s with kv := aset s.kv key (t, 0) }

/-- `tokenRedis.Delete`: `DEL token:id:<id>`; deleting a missing key is a
zero-count success. -/
def tokenRedis.Delete (env : RedisEnv) (id : String) (s : RedisState) :
    RResult (Option AppError) :=
  let key := "token:id:" ++ id
  if env.delFails key then .panicked "redis del failed" s
  else .ok none (delKey s key)

/-- The member loop of `tokenRedis.DeleteByConsumerID`: delete each member via
`tokenRedis.Delete`, whose `panicIf` aborts the loop at the first failure. -/
def tokenRedis.deleteEach (env : RedisEnv) :
    List String → RedisState → RResult Unit
  | [], s => .ok () s
  | id :: rest, s =>
    match tokenRedis.Delete env id s with
    | .panicked m s' => .panicked m s'
    | .ok _ s' => tokenRedis.deleteEach env rest s'

/-- `tokenRedis.DeleteByConsumerID`: `SMEMBERS token:consumer:<cid>`, delete
the primary record of each member, then `DEL` the index key itself. -/
def tokenRedis.DeleteByConsumerID (env : RedisEnv) (consumerID : String) (s : RedisState) :
    RResult (Option AppError) :=
  let key := "token:consumer:" ++ consumerID
  if env.smembersFails key then .panicked "redis smembers failed" s
  else
    match tokenRedis.deleteEach env (setMembers s key) s with
    | .panicked m s' => .panicked m s'
    | .ok _ s' =>
      if env.delFails key then .panicked "redis del failed" s'
      else .ok none (delKey s' key)

/-- A concrete token of consumer `C1` with id `T1`. -/
def tkA : Token := ⟨"T1", "", "C1", "", 0, 0, 0⟩

/-- A concrete token of consumer `C1` with id `T2`. -/
def tkB : Token := ⟨"T2", "", "C1", "", 0, 0, 0⟩

/-- A concrete token whose caller-chosen `CreatedAt` (99) differs from the
insertion instant used in the witnesses. -/
def tkD : Token := ⟨"TD", "", "CD", "", 0, 500, 99⟩

/-- A concrete token created by `newToken` at instant 0 with a 30-minute
timeout. -/
def tk7 : Token := newToken 30 0 "T7" "C7"

/-- A transport where deleting the key `token:id:T1` fails and every other
command succeeds. -/
def envBadDel : RedisEnv :=
  { RedisEnv.ok with delFails := fun k => k == "token:id:T1" }

/-- A concrete Redis state holding the records of `tkA` and `tkB` and the
owner index of consumer `C1` over both ids. -/
def rs0 : RedisState :=
  ⟨[("token:id:T1", (tkA, 0)), ("token:id:T2", (tkB, 0))],
   [("token:consumer:C1", ["T1", "T2"])]⟩

/-- A concrete replacement token with the same id `T1` as `tkA` but a
different `Source`. -/
def tkA2 : Token := ⟨"T1", "s2", "C1", "", 0, 0, 0⟩

/-! ## Helper lemmas about the association-list primitives -/

theorem alookup_aset_self {α : Type} (l : List (String × α)) (k : String) (v : α) :
    alookup (aset l k v) k = some v := by
  induction l with
  | nil => simp [aset, alookup]
  | cons p rest ih =>
    obtain ⟨k', v'⟩ := p
    cases hb : k' == k with
    | true => simp [aset, hb, alookup]
    | false => simp [aset, hb, alookup, ih]

theorem adel_of_absent {α : Type} (l : List (String × α)) (k : String)
    (h : alookup l k = none) : adel l k = l := by
  induction l with
  | nil => rfl
  | cons p rest ih =>
    obtain ⟨k', v'⟩ := p
    cases hb : k' == k with
    | true => simp [alookup, hb] at h
    | false =>
      simp only [alookup, hb] at h
      unfold adel
      rw [List.filter_cons_of_pos (by simp [hb])]
      exact congrArg (List.cons (k', v')) (ih h)

theorem alookup_adel_self {α : Type} (l : List (String × α)) (k : String) :
    alookup (adel l k) k = none := by
  induction l with
  | nil => rfl
  | cons p rest ih =>
    obtain ⟨k', v'⟩ := p
    cases hb : k' == k with
    | true =>
      unfold adel
      rw [List.filter_cons_of_neg (by simp [hb])]
      exact ih
    | false =>
      unfold adel
      rw [List.filter_cons_of_pos (by simp [hb])]
      simpa [alookup, hb] using ih

theorem find?_append_single (p : Token → Bool) (db : MongoTokens) (x : Token)
    (h : db.any p = false) (hx : p x = true) : (db ++ [x]).find? p = some x := by
  induction db with
  | nil => simp [List.find?, hx]
  | cons d rest ih =>
    simp only [List.any_cons, Bool.or_eq_false_iff] at h
    simpa [List.find?, h.1] using ih h.2

/-! ## Claim theorems -/

/-- C2 counterexample: the claim states that `isValid()` returns false when
the current time equals `expiresAt`; but `tkA` has `Expiration = 0` and at
`now = 0` the code (`time.Now().After(t.Expiration)` being strict) reports
`isValid() = true`. -/
theorem C2_boundary_counterexample :
    tkA.Expiration = 0 ∧ Token.isValid 0 tkA = true := by
  constructor <;> decide

/-- C2 (amended): `isValid()` returns false exactly when the current time is
strictly after `expiresAt`, and true when the current time is at or before
`expiresAt`; in particular one microsecond (1000 ns) before `expiresAt` it
returns true. -/
theorem C2_validity_boundary :
    ∀ (now : Int) (t : Token),
      (Token.isValid now t = true ↔ now ≤ t.Expiration)
      ∧ Token.isValid (t.Expiration - 1000) t = true := by
  intro now t
  constructor
  · by_cases h : t.Expiration < now
    all_goals simp [Token.isValid, h]
    all_goals omega
  · simp only [Token.isValid]
    rw [if_neg (by omega)]

/-- C7: `renew()` never decreases `expiresAt`, given that `expiresAt` carries
the creation invariant `CreatedAt + timeout` minutes, the timeout is
non-negative, and the clock has not run backwards past the creation
instant. -/
theorem C7_renew_monotone :
    ∀ (timeout now : Int) (t : Token),
      t.Expiration = t.CreatedAt + timeout * 60000000000 →
      0 ≤ timeout →
      t.CreatedAt ≤ now →
      t.Expiration ≤ (Token.renew timeout now t).Expiration := by
  intro timeout now t hc ht hn
  simp only [Token.renew]
  omega

/-- C7 witness: the hypotheses and the conclusion at `tk7` (created at 0 with
a 30-minute timeout) renewed at instant 100. -/
theorem C7_renew_monotone_witness :
    tk7.Expiration = tk7.CreatedAt + 30 * 60000000000
    ∧ (0 : Int) ≤ 30
    ∧ tk7.CreatedAt ≤ 100
    ∧ tk7.Expiration ≤ (Token.renew 30 100 tk7).Expiration :=
  ⟨by decide, by decide, by decide,
   C7_renew_monotone 30 100 tk7 (by decide) (by decide) (by decide)⟩

/-- C10: on the key-value backend, `update` always succeeds by writing the
primary record with zero (no) time-to-live: whatever TTL the stored record
previously carried, after `tokenRedis.Update` the record under
`token:id:<id>` is the updated token with expiration `0`. -/
theorem C10_update_clears_ttl :
    ∀ (t : Token) (s : RedisState),
      ∃ s' : RedisState,
        tokenRedis.Update RedisEnv.ok t s = .ok none s'
        ∧ alookup s'.kv ("token:id:" ++ t.ID) = some (t, 0) := by
  intro t s
  refine ⟨{ s with kv := aset s.kv ("token:id:" ++ t.ID) (t, 0) }, ?_, ?_⟩
  · simp [tokenRedis.Update, RedisEnv.ok]
  · exact alookup_aset_self s.kv ("token:id:" ++ t.ID) (t, 0)

/-- C5: `get` of an id absent from the store returns an absent result and no
error on all three backends (the in-process map read yields nil; mongo and
redis translate their "not found" replies into `(nil, nil)`). -/
theorem C5_get_missing :
    (∀ (key : String) (s : TokenMemStore), alookup s key = none →
        TokenMemStore.Get key s = (none, none))
    ∧ (∀ (key : String) (db : MongoTokens), (∀ d ∈ db, d.ID ≠ key) →
        tokenMongo.Get key db = (none, none))
    ∧ (∀ (now : Int) (id : String) (s : RedisState),
        alookup s.kv ("token:id:" ++ id) = none →
        tokenRedis.Get RedisEnv.ok now id s = .ok none s) := by
  refine ⟨?_, ?_, ?_⟩
  · intro key s h
    simp [TokenMemStore.Get, h]
  · intro key db h
    have hf : db.find? (fun d => d.ID == key) = none := by
      rw [List.find?_eq_none]
      intro x hx
      simp [h x hx]
    simp [tokenMongo.Get, hf]
  · intro now id s h
    simp [tokenRedis.Get, RedisEnv.ok, h]

/-- C5 witness: the hypotheses and conclusions at `"nonexistent-id"` on an
empty in-process store, an empty mongo collection, and an empty Redis
state. -/
theorem C5_get_missing_witness :
    alookup ([] : TokenMemStore) "nonexistent-id" = none
    ∧ TokenMemStore.Get "nonexistent-id" [] = (none, none)
    ∧ tokenMongo.Get "nonexistent-id" [] = (none, none)
    ∧ tokenRedis.Get RedisEnv.ok 0 "nonexistent-id" ⟨[], []⟩ = .ok none ⟨[], []⟩ :=
  ⟨rfl, C5_get_missing.1 "nonexistent-id" [] rfl,
   C5_get_missing.2.1 "nonexistent-id" [] (by simp),
   C5_get_missing.2.2 0 "nonexistent-id" ⟨[], []⟩ rfl⟩

/-- C6: on the in-process backend, `update` of an id never inserted returns
the not-found `AppError` and leaves the mapping unchanged, while `update` of
a present id succeeds and replaces the stored record. -/
theorem C6_mem_update_semantics :
    (∀ (t : Token) (s : TokenMemStore), alookup s t.ID = none →
        TokenMemStore.Update t s =
          (some ⟨"invalid_input", "The token was not found."⟩, s))
    ∧ (∀ (t : Token) (s : TokenMemStore) (u : Token), alookup s t.ID = some u →
        (TokenMemStore.Update t s).1 = none
        ∧ TokenMemStore.Get t.ID (TokenMemStore.Update t s).2 = (some t, none)) := by
  refine ⟨?_, ?_⟩
  · intro t s h
    simp [TokenMemStore.Update, h]
  · intro t s u h
    simp [TokenMemStore.Update, h, TokenMemStore.Get, alookup_aset_self]

/-- C6 witness: on the store `[("T1", tkA)]`, updating `tkB` (id `T2`, never
inserted) fails with the not-found error and leaves the store unchanged;
updating `tkA2` (id `T1`, present) succeeds and `get` then returns `tkA2`. -/
theorem C6_mem_update_semantics_witness :
    alookup ([("T1", tkA)] : TokenMemStore) tkB.ID = none
    ∧ TokenMemStore.Update tkB [("T1", tkA)] =
        (some ⟨"invalid_input", "The token was not found."⟩, [("T1", tkA)])
    ∧ alookup ([("T1", tkA)] : TokenMemStore) tkA2.ID = some tkA
    ∧ (TokenMemStore.Update tkA2 [("T1", tkA)]).1 = none
    ∧ TokenMemStore.Get tkA2.ID (TokenMemStore.Update tkA2 [("T1", tkA)]).2 =
        (some tkA2, none) :=
  ⟨by decide, C6_mem_update_semantics.1 tkB [("T1", tkA)] (by decide),
   by decide, (C6_mem_update_semantics.2 tkA2 [("T1", tkA)] tkA (by decide)).1,
   (C6_mem_update_semantics.2 tkA2 [("T1", tkA)] tkA (by decide)).2⟩

/-- C4 counterexample: the claim states that deleting a non-existent id
succeeds on each of the three backends, but on the document-store backend
`Delete "nonexistent-id"` over an empty collection returns the mgo
`ErrNotFound` ("not found") unchanged. -/
theorem C4_mongo_delete_missing_counterexample :
    tokenMongo.Delete "nonexistent-id" [] = (some (.store "not found"), []) := by
  decide

/-- C4 (amended): deleting a non-existent id is a silent success that leaves
the state unchanged on the in-process and key-value backends; on the
document-store backend it returns the "not found" store error and leaves
the state unchanged. -/
theorem C4_delete_missing :
    (∀ (key : String) (s : TokenMemStore), alookup s key = none →
        TokenMemStore.Delete key s = (none, s))
    ∧ (∀ (key : String) (db : MongoTokens), (∀ d ∈ db, d.ID ≠ key) →
        tokenMongo.Delete key db = (some (.store "not found"), db))
    ∧ (∀ (id : String) (s : RedisState),
        alookup s.kv ("token:id:" ++ id) = none →
        alookup s.sets ("token:id:" ++ id) = none →
        tokenRedis.Delete RedisEnv.ok id s = .ok none s) := by
  refine ⟨?_, ?_, ?_⟩
  · intro key s h
    simp [TokenMemStore.Delete, adel_of_absent s key h]
  · intro key db h
    have hany : db.any (fun d => d.ID == key) = false := by
      rw [List.any_eq_false]
      intro x hx
      simp [h x hx]
    simp [tokenMongo.Delete, hany]
  · intro id s h1 h2
    have hdel : delKey s ("token:id:" ++ id) = s := by
      cases s with
      | mk kv sets =>
        simp only [delKey]
        simp_all [adel_of_absent]
    simp [tokenRedis.Delete, RedisEnv.ok, hdel]

/-- C4 witness: the hypotheses and conclusions at `"nonexistent-id"` on the
one-entry in-process store, the one-document mongo collection, and the
Redis state `rs0`. -/
theorem C4_delete_missing_witness :
    alookup ([("T1", tkA)] : TokenMemStore) "nonexistent-id" = none
    ∧ TokenMemStore.Delete "nonexistent-id" [("T1", tkA)] = (none, [("T1", tkA)])
    ∧ tokenMongo.Delete "nonexistent-id" [tkA] = (some (.store "not found"), [tkA])
    ∧ tokenRedis.Delete RedisEnv.ok "nonexistent-id" rs0 = .ok none rs0 :=
  ⟨by decide, C4_delete_missing.1 "nonexistent-id" [("T1", tkA)] (by decide),
   C4_delete_missing.2.1 "nonexistent-id" [tkA] (by decide),
   C4_delete_missing.2.2 "nonexistent-id" rs0 (by decide) (by decide)⟩

/-- Shape of a successful in-process insert: the id was absent and the new
entry (with `CreatedAt` overwritten to `now`) is prepended. -/
theorem mem_insert_ok_state (now : Int) (t : Token) (s s1 : TokenMemStore)
    (h : TokenMemStore.Insert now t s = (none, s1)) :
    alookup s t.ID = none ∧ s1 = (t.ID, { t with CreatedAt := now }) :: s := by
  unfold TokenMemStore.Insert at h
  cases hl : alookup s t.ID with
  | some u => rw [hl] at h; simp at h
  | none =>
    rw [hl] at h
    simp at h
    exact ⟨rfl, h.symm⟩

/-- Shape of a successful mongo insert: no document carried the id and the new
document (with `CreatedAt` overwritten to `now`) is appended. -/
theorem mongo_insert_ok_state (now : Int) (t : Token) (db db1 : MongoTokens)
    (h : tokenMongo.Insert now t db = (none, db1)) :
    db.any (fun d => d.ID == t.ID) = false ∧ db1 = db ++ [{ t with CreatedAt := now }] := by
  unfold tokenMongo.Insert at h
  split at h
  · simp at h
  · rename_i hany
    simp at h
    exact ⟨by simpa using hany, h.symm⟩

/-- Shape of a successful Redis insert over a healthy transport: the primary
record (with `CreatedAt` overwritten to `now` and TTL `Expiration - now`) is
written and the id is added to the owner index set. -/
theorem redis_insert_ok_state (now : Int) (t : Token) (s s1 : RedisState)
    (h : tokenRedis.Insert RedisEnv.ok now t s = .ok none s1) :
    s1 = ⟨aset s.kv ("token:id:" ++ t.ID) ({ t with CreatedAt := now }, t.Expiration - now),
          setsAdd s.sets ("token:consumer:" ++ t.ConsumerID) t.ID⟩ := by
  simp [tokenRedis.Insert, RedisEnv.ok] at h
  split at h
  · simp at h
  · injection h with h1 h2
    exact h2.symm

/-- C1: on every backend, once `insert(t1)` has succeeded, a subsequent
`insert(t2)` with the same id fails with the duplicate-key `AppError`
("The token key already exits…") and leaves the state unchanged. -/
theorem C1_insert_duplicate :
    (∀ (now1 now2 : Int) (t1 t2 : Token) (s s1 : TokenMemStore),
        t2.ID = t1.ID →
        TokenMemStore.Insert now1 t1 s = (none, s1) →
        TokenMemStore.Insert now2 t2 s1 =
          (some ⟨"invalid_input", "The token key already exits."⟩, s1))
    ∧ (∀ (now1 now2 : Int) (t1 t2 : Token) (db db1 : MongoTokens),
        t2.ID = t1.ID →
        tokenMongo.Insert now1 t1 db = (none, db1) →
        tokenMongo.Insert now2 t2 db1 =
          (some (.app ⟨"invalid_input", "The token key already exits"⟩), db1))
    ∧ (∀ (now1 now2 : Int) (t1 t2 : Token) (s s1 : RedisState),
        t2.ID = t1.ID →
        tokenRedis.Insert RedisEnv.ok now1 t1 s = .ok none s1 →
        tokenRedis.Insert RedisEnv.ok now2 t2 s1 =
          .ok (some ⟨"invalid_input", "The token key already exits"⟩) s1) := by
  refine ⟨?_, ?_, ?_⟩
  · intro now1 now2 t1 t2 s s1 hid h
    obtain ⟨hl, h2⟩ := mem_insert_ok_state now1 t1 s s1 h
    subst h2
    simp [TokenMemStore.Insert, alookup, hid]
  · intro now1 now2 t1 t2 db db1 hid h
    obtain ⟨hany, h2⟩ := mongo_insert_ok_state now1 t1 db db1 h
    subst h2
    simp [tokenMongo.Insert, List.any_append, hid]
  · intro now1 now2 t1 t2 s s1 hid h
    have h2 := redis_insert_ok_state now1 t1 s s1 h
    subst h2
    simp [tokenRedis.Insert, RedisEnv.ok, hid, alookup_aset_self]

/-- C1 witness: inserting `tkA` into each empty backend succeeds, and
re-inserting `tkA2` (same id `T1`) fails with the duplicate-key error. -/
theorem C1_insert_duplicate_witness :
    tkA2.ID = tkA.ID
    ∧ TokenMemStore.Insert 3 tkA [] = (none, [("T1", { tkA with CreatedAt := 3 })])
    ∧ TokenMemStore.Insert 4 tkA2 [("T1", { tkA with CreatedAt := 3 })] =
        (some ⟨"invalid_input", "The token key already exits."⟩,
         [("T1", { tkA with CreatedAt := 3 })])
    ∧ tokenMongo.Insert 3 tkA [] = (none, [{ tkA with CreatedAt := 3 }])
    ∧ tokenMongo.Insert 4 tkA2 [{ tkA with CreatedAt := 3 }] =
        (some (.app ⟨"invalid_input", "The token key already exits"⟩),
         [{ tkA with CreatedAt := 3 }])
    ∧ tokenRedis.Insert RedisEnv.ok 3 tkA ⟨[], []⟩ =
        .ok none ⟨[("token:id:T1", ({ tkA with CreatedAt := 3 }, tkA.Expiration - 3))],
                  [("token:consumer:C1", ["T1"])]⟩
    ∧ tokenRedis.Insert RedisEnv.ok 4 tkA2
        ⟨[("token:id:T1", ({ tkA with CreatedAt := 3 }, tkA.Expiration - 3))],
         [("token:consumer:C1", ["T1"])]⟩ =
        .ok (some ⟨"invalid_input", "The token key already exits"⟩)
          ⟨[("token:id:T1", ({ tkA with CreatedAt := 3 }, tkA.Expiration - 3))],
           [("token:consumer:C1", ["T1"])]⟩ :=
  ⟨by decide, by decide,
   C1_insert_duplicate.1 3 4 tkA tkA2 [] [("T1", { tkA with CreatedAt := 3 })]
     (by decide) (by decide),
   by decide,
   C1_insert_duplicate.2.1 3 4 tkA tkA2 [] [{ tkA with CreatedAt := 3 }]
     (by decide) (by decide),
   by decide,
   C1_insert_duplicate.2.2 3 4 tkA tkA2 ⟨[], []⟩
     ⟨[("token:id:T1", ({ tkA with CreatedAt := 3 }, tkA.Expiration - 3))],
      [("token:consumer:C1", ["T1"])]⟩ (by decide) (by decide)⟩

/-- C9: every backend overwrites the caller-supplied creation timestamp: after a
successful insert at instant `now`, the stored record is the inserted token
with `CreatedAt = now`, whatever `CreatedAt` the caller supplied. -/
theorem C9_insert_sets_creation_time :
    (∀ (now : Int) (t : Token) (s s1 : TokenMemStore),
        TokenMemStore.Insert now t s = (none, s1) →
        TokenMemStore.Get t.ID s1 = (some { t with CreatedAt := now }, none))
    ∧ (∀ (now : Int) (t : Token) (db db1 : MongoTokens),
        tokenMongo.Insert now t db = (none, db1) →
        tokenMongo.Get t.ID db1 = (some { t with CreatedAt := now }, none))
    ∧ (∀ (now : Int) (t : Token) (s s1 : RedisState),
        tokenRedis.Insert RedisEnv.ok now t s = .ok none s1 →
        alookup s1.kv ("token:id:" ++ t.ID) =
          some ({ t with CreatedAt := now }, t.Expiration - now)) := by
  refine ⟨?_, ?_, ?_⟩
  · intro now t s s1 h
    obtain ⟨hl, h2⟩ := mem_insert_ok_state now t s s1 h
    subst h2
    simp [TokenMemStore.Get, alookup]
  · intro now t db db1 h
    obtain ⟨hany, h2⟩ := mongo_insert_ok_state now t db db1 h
    subst h2
    have hf := find?_append_single (fun d => d.ID == t.ID) db
      { t with CreatedAt := now } hany (by simp)
    simp [tokenMongo.Get, hf]
  · intro now t s s1 h
    have h2 := redis_insert_ok_state now t s s1 h
    subst h2
    simp [alookup_aset_self]

/-- C9 witness: inserting `tkD` (whose caller-chosen `CreatedAt` is 99) at
instant 7 stores a record with `CreatedAt = 7` on each backend. -/
theorem C9_insert_sets_creation_time_witness :
    TokenMemStore.Insert 7 tkD [] = (none, [("TD", { tkD with CreatedAt := 7 })])
    ∧ TokenMemStore.Get tkD.ID [("TD", { tkD with CreatedAt := 7 })] =
        (some { tkD with CreatedAt := 7 }, none)
    ∧ tokenMongo.Insert 7 tkD [] = (none, [{ tkD with CreatedAt := 7 }])
    ∧ tokenMongo.Get tkD.ID [{ tkD with CreatedAt := 7 }] =
        (some { tkD with CreatedAt := 7 }, none)
    ∧ tokenRedis.Insert RedisEnv.ok 7 tkD ⟨[], []⟩ =
        .ok none ⟨[("token:id:TD", ({ tkD with CreatedAt := 7 }, tkD.Expiration - 7))],
                  [("token:consumer:CD", ["TD"])]⟩
    ∧ alookup ([("token:id:TD", ({ tkD with CreatedAt := 7 }, tkD.Expiration - 7))] :
          List (String × (Token × Int))) ("token:id:" ++ tkD.ID) =
        some ({ tkD with CreatedAt := 7 }, tkD.Expiration - 7) :=
  ⟨by decide,
   C9_insert_sets_creation_time.1 7 tkD [] [("TD", { tkD with CreatedAt := 7 })] (by decide),
   by decide,
   C9_insert_sets_creation_time.2.1 7 tkD [] [{ tkD with CreatedAt := 7 }] (by decide),
   by decide,
   C9_insert_sets_creation_time.2.2 7 tkD ⟨[], []⟩
     ⟨[("token:id:TD", ({ tkD with CreatedAt := 7 }, tkD.Expiration - 7))],
      [("token:consumer:CD", ["TD"])]⟩ (by decide)⟩

/-- C3 at the failing input: both `tkA` and `tkB` belong to consumer `C1`,
yet the document-store `DeleteByConsumerID "C1"` (mgo `Remove`, which deletes
a single matching document) succeeds while leaving `tkB` behind, so a
subsequent `GetByConsumerID "C1"` is non-empty — the cascade is incomplete. -/
theorem C3_mongo_cascade_incomplete :
    tkA.ConsumerID = "C1" ∧ tkB.ConsumerID = "C1"
    ∧ tokenMongo.DeleteByConsumerID "C1" [tkA, tkB] = (none, [tkB])
    ∧ (tokenMongo.GetByConsumerID "C1" [tkB]).1 = [tkB]
    ∧ ([tkB] : List Token) ≠ [] := by
  decide

/-- C8 counterexample: with the transport `envBadDel` (deleting
`token:id:T1` fails) and the state `rs0`, `DeleteByConsumerID "C1"` panics at
the first member: the final state still holds the primary record of `tkB` and the
whole owner-index key — the cascade neither continues nor scrubs the
index, contradicting the claim. -/
theorem C8_cascade_abort_counterexample :
    tokenRedis.DeleteByConsumerID envBadDel "C1" rs0 = .panicked "redis del failed" rs0
    ∧ alookup rs0.kv "token:id:T2" = some (tkB, 0)
    ∧ alookup rs0.sets "token:consumer:C1" = some ["T1", "T2"] := by
  decide

/-- C8 (amended): on the key-value backend, if deleting the first attempted
member primary record fails during `deleteByOwner`, the implementation
aborts immediately (the client error escalates through `panicIf`): the
remaining members are not attempted, the owner index key is not deleted,
and the store state is unchanged. -/
theorem C8_first_failure_aborts :
    ∀ (env : RedisEnv) (cid id : String) (rest : List String) (s : RedisState),
      setMembers s ("token:consumer:" ++ cid) = id :: rest →
      env.smembersFails ("token:consumer:" ++ cid) = false →
      env.delFails ("token:id:" ++ id) = true →
      tokenRedis.DeleteByConsumerID env cid s = .panicked "redis del failed" s := by
  intro env cid id rest s hm hs hd
  simp [tokenRedis.DeleteByConsumerID, hs, hm, tokenRedis.deleteEach,
    tokenRedis.Delete, hd]

/-- C8 witness: the hypotheses and conclusion at `envBadDel`, consumer `C1`
and the state `rs0` whose index lists members `T1` then `T2`. -/
theorem C8_first_failure_aborts_witness :
    setMembers rs0 ("token:consumer:" ++ "C1") = "T1" :: ["T2"]
    ∧ envBadDel.smembersFails ("token:consumer:" ++ "C1") = false
    ∧ envBadDel.delFails ("token:id:" ++ "T1") = true
    ∧ tokenRedis.DeleteByConsumerID envBadDel "C1" rs0 =
        .panicked "redis del failed" rs0 :=
  ⟨by decide, by decide, by decide,
   C8_first_failure_aborts envBadDel "C1" "T1" ["T2"] rs0
     (by decide) (by decide) (by decide)⟩
